import Mathlib

/-!
Shallow embedding of `src/js/main.js` (acme blogs browser client) and proofs
about its claims.

Modelling conventions:

* JavaScript's two absent-value sentinels are embedded as `JSRet.undef`
  (undefined) and `JSRet.null`; a genuine value `v` is `JSRet.val v`.
* A thrown JavaScript exception is embedded as `Except.error`; code that
  cannot throw is embedded with a plain (total) result type or always
  returns `Except.ok`.
* The DOM is embedded as a tree of element nodes (with the attributes the
  program reads or writes: tag name, class list, text content, the
  `data-post-id` attribute, the set of attached click listeners, the
  `disabled` and `value` properties) and text nodes.  A document fragment
  is a bare list of nodes, as fragments never persist inside the document
  (appendChild splices their children).
* The page (`Doc`) consists of the optional `<main>` element and the select
  menu's `disabled` flag: the document bodies this program runs against
  contain exactly the select menu and the `<main>` content area, so
  document-wide queries (`document.querySelector`) search the `<main>`
  subtree.
* `data-post-id` is written from numeric post ids (`button.dataset.postId =
  post.id`), so the attribute is embedded as the numeric id itself; the
  string form of a numeric id is never empty, so JavaScript's truthiness
  test `if (postId)` is embedded as `Option.isSome`.
* Network effects are embedded as an `Oracle` fixing, for every request the
  program can issue, the outcome of that request: rejection, a non-2xx
  response, or a 2xx response with a parsed payload.  Each fetch function
  also reports whether it issued its request and the `console.error` log it
  produced.
* Event-listener identity: each textual `addEventListener` /
  `removeEventListener` call site passes a freshly allocated closure.
  Closures are embedded as natural-number ids drawn from a counter threaded
  through the functions that allocate them; distinct allocations get
  distinct ids.
-/

set_option maxHeartbeats 1600000

/-- The two JavaScript absent-value sentinels next to a genuine value. -/
inductive JSRet (α : Type) where
  | undef
  | null
  | val (a : α)
  deriving Repr, DecidableEq

/-- A thrown JavaScript runtime error. -/
inductive JSError where
  | typeError (msg : String)
  deriving Repr, DecidableEq

/-- The element attributes and properties read or written by `main.js`. -/
structure EData where
  tag : String
  classes : List String
  textContent : String
  postId : Option Int
  listeners : List Nat
  disabled : Bool
  value : String
  deriving Repr, DecidableEq

/-- A DOM node: an element with attribute data and child nodes, or a text
node. -/
inductive Node where
  | elem (data : EData) (children : List Node)
  | text (s : String)
  deriving Repr

/-- A value that is either a single node or a document fragment (a detached
list of nodes, spliced on append). -/
inductive DomVal where
  | node (n : Node)
  | frag (cs : List Node)
  deriving Repr

/-- The page state: the optional `<main>` element and the select menu's
`disabled` property. -/
structure Doc where
  main : Option Node
  selectDisabled : Bool
  deriving Repr

/-- Company record nested inside a user payload. -/
structure Company where
  name : String
  catchPhrase : String
  deriving Repr, DecidableEq

/-- User payload from the remote API. -/
structure User where
  id : Int
  name : String
  company : Company
  deriving Repr, DecidableEq

/-- Post payload from the remote API. -/
structure Post where
  id : Int
  userId : Int
  title : String
  body : String
  deriving Repr, DecidableEq

/-- Comment payload from the remote API. -/
structure Comment where
  postId : Int
  name : String
  email : String
  body : String
  deriving Repr, DecidableEq

/-- Outcome of one HTTP request: the promise rejects, the response is not
2xx, or the response is 2xx with a parsed JSON payload. -/
inductive FetchOutcome (α : Type) where
  | reject
  | notOk
  | ok (a : α)
  deriving Repr, DecidableEq

/-- A failing network interaction: rejection or a non-2xx response. -/
def FetchOutcome.isFail {α : Type} : FetchOutcome α → Bool
  | .reject => true
  | .notOk => true
  | .ok _ => false

/-- What one call to a fetch function produced: the value the caller sees
(an exception or a result), the `console.error` log, and whether the
network request was actually issued. -/
structure FetchCall (α : Type) where
  result : Except JSError (JSRet α)
  log : List String
  requested : Bool
  deriving Repr

/-- The network environment: the outcome of every request the program can
issue, per endpoint and identifier. -/
structure Oracle where
  usersReq : FetchOutcome (List User)
  userReq : Int → FetchOutcome User
  postsReq : Int → FetchOutcome (List Post)
  commentsReq : Int → FetchOutcome (List Comment)

/-- The constant prefix `console.error('Fetch error:', error)` logs. -/
def fetchErrorLog : String := "Fetch error:"

/-- `getUsers` from `main.js`: fetch `/users`; on success return the parsed
payload, on rejection or a non-2xx response log a diagnostic and return
null.  The function takes no identifier argument. -/
def getUsers (o : Oracle) : FetchCall (List User) :=
  match o.usersReq with
  | .ok a => ⟨.ok (.val a), [], true⟩
  | .notOk => ⟨.ok .null, [fetchErrorLog], true⟩
  | .reject => ⟨.ok .null, [fetchErrorLog], true⟩

/-- `getUserPosts` from `main.js`: with a missing `userId` return undefined
before any network activity; otherwise fetch `/posts?userId=` and handle
failure by logging and returning null. -/
def getUserPosts (o : Oracle) (userId : Option Int) : FetchCall (List Post) :=
  match userId with
  | none => ⟨.ok .undef, [], false⟩
  | some uid =>
    match o.postsReq uid with
    | .ok a => ⟨.ok (.val a), [], true⟩
    | .notOk => ⟨.ok .null, [fetchErrorLog], true⟩
    | .reject => ⟨.ok .null, [fetchErrorLog], true⟩

/-- `getUser` from `main.js`: with a missing `userId` return undefined
before any network activity; otherwise fetch `/users/{id}` and handle
failure by logging and returning null. -/
def getUser (o : Oracle) (userId : Option Int) : FetchCall User :=
  match userId with
  | none => ⟨.ok .undef, [], false⟩
  | some uid =>
    match o.userReq uid with
    | .ok a => ⟨.ok (.val a), [], true⟩
    | .notOk => ⟨.ok .null, [fetchErrorLog], true⟩
    | .reject => ⟨.ok .null, [fetchErrorLog], true⟩

/-- `getPostComments` from `main.js`: with a missing `postId` return
undefined before any network activity; otherwise fetch `/comments?postId=`
and handle failure by logging and returning null. -/
def getPostComments (o : Oracle) (postId : Option Int) : FetchCall (List Comment) :=
  match postId with
  | none => ⟨.ok .undef, [], false⟩
  | some pid =>
    match o.commentsReq pid with
    | .ok a => ⟨.ok (.val a), [], true⟩
    | .notOk => ⟨.ok .null, [fetchErrorLog], true⟩
    | .reject => ⟨.ok .null, [fetchErrorLog], true⟩

/-- `createElemWithText` from `main.js`: build an element of the given tag
with the given text content and, when present, the given single class. -/
def createElemWithText (tag : String) (txt : String) (className : Option String) : Node :=
  .elem { tag := tag,
          classes := match className with | some c => [c] | none => [],
          textContent := txt,
          postId := none,
          listeners := [],
          disabled := false,
          value := "" } []

/-- An option element of a select menu: its `value` and its text label. -/
structure OptionElem where
  value : String
  label : String
  deriving Repr, DecidableEq

/-- `createSelectOptions` from `main.js`: undefined on a falsy user array,
otherwise one option per user pushed in input order, with `option.value =
user.id` (the DOM stores the id's string form) and `option.textContent =
user.name`. -/
def createSelectOptions (users : Option (List User)) : Option (List OptionElem) :=
  match users with
  | none => none
  | some us =>
    some (us.foldl (fun acc u => acc ++ [{ value := toString u.id, label := u.name }]) [])

/-- Whether a node is an element (a candidate for `lastElementChild`). -/
def Node.isElem : Node → Bool
  | .elem _ _ => true
  | .text _ => false

/-- Number of element children in a child list (`childElementCount`). -/
def countElems (cs : List Node) : Nat :=
  (cs.filter Node.isElem).length

/-- `childElementCount` of a single node or a fragment. -/
def DomVal.childElementCount : DomVal → Nat
  | .node (.elem _ cs) => countElems cs
  | .node (.text _) => 0
  | .frag cs => countElems cs

/-- `appendChild` splices a fragment's children and appends a plain node. -/
def appendDomVal (parent : Node) (child : DomVal) : Node :=
  match parent, child with
  | .elem d cs, .node n => .elem d (cs ++ [n])
  | .elem d cs, .frag xs => .elem d (cs ++ xs)
  | .text s, _ => .text s

mutual
/-- All button elements in a node's subtree, the node itself included, in
document order (the `querySelectorAll('button')` matches). -/
def buttonsOf : Node → List EData
  | .text _ => []
  | .elem d cs => (if d.tag = "button" then [d] else []) ++ buttonsOfL cs

/-- All button elements in a forest, in document order. -/
def buttonsOfL : List Node → List EData
  | [] => []
  | c :: cs => buttonsOf c ++ buttonsOfL cs
end

/-- The buttons inside the document's `<main>` element (its descendants). -/
def mainButtons (doc : Doc) : List EData :=
  match doc.main with
  | some (.elem _ cs) => buttonsOfL cs
  | _ => []

mutual
/-- `document.querySelector` with an in-place update: find the first
element (preorder document order) whose data satisfies `p`, replace its
data by `f` of it, and report the updated match (its data and children). -/
def updFirst (p : EData → Bool) (f : EData → EData) : Node → Node × Option (EData × List Node)
  | .text s => (.text s, none)
  | .elem d cs =>
    if p d then (.elem (f d) cs, some (f d, cs))
    else
      let r := updFirstL p f cs
      (.elem d r.1, r.2)

/-- `updFirst` over a forest: the first matching element wins. -/
def updFirstL (p : EData → Bool) (f : EData → EData) : List Node → List Node × Option (EData × List Node)
  | [] => ([], none)
  | c :: cs =>
    let r := updFirst p f c
    match r.2 with
    | some m => (r.1 :: cs, some m)
    | none =>
      let rs := updFirstL p f cs
      (r.1 :: rs.1, rs.2)
end

/-- Read-only `document.querySelector`: the first match, unmodified. -/
def findFirst (p : EData → Bool) (t : Node) : Option (EData × List Node) :=
  (updFirst p id t).2

/-- The selector `section[data-post-id='${postId}']`. -/
def secPred (pid : Int) (d : EData) : Bool :=
  d.tag = "section" && d.postId = some pid

/-- The selector `button[data-post-id='${postId}']`. -/
def btnPred (pid : Int) (d : EData) : Bool :=
  d.tag = "button" && d.postId = some pid

/-- `classList.toggle('hide')`: remove the class when present, append it
when absent. -/
def toggleHide (d : EData) : EData :=
  if "hide" ∈ d.classes then
    { d with classes := d.classes.filter (fun c => c ≠ "hide") }
  else
    { d with classes := d.classes ++ ["hide"] }

/-- The button-label swap of `toggleCommentButton`. -/
def flipLabel (d : EData) : EData :=
  { d with textContent :=
      if d.textContent = "Show Comments" then "Hide Comments" else "Show Comments" }

/-- `toggleCommentSection` from `main.js`: undefined on a missing `postId`;
null when no matching section exists; otherwise toggle the section's `hide`
class and return the section. -/
def toggleCommentSection (pid : Option Int) (doc : Doc) : JSRet Node × Doc :=
  match pid with
  | none => (.undef, doc)
  | some q =>
    match doc.main with
    | none => (.null, doc)
    | some m =>
      let r := updFirst (secPred q) toggleHide m
      match r.2 with
      | none => (.null, doc)
      | some (d, cs) => (.val (.elem d cs), { doc with main := some r.1 })

/-- `toggleCommentButton` from `main.js`: undefined on a missing `postId`;
null when no matching button exists; otherwise swap the button's label
between the two fixed strings and return the button. -/
def toggleCommentButton (pid : Option Int) (doc : Doc) : JSRet Node × Doc :=
  match pid with
  | none => (.undef, doc)
  | some q =>
    match doc.main with
    | none => (.null, doc)
    | some m =>
      let r := updFirst (btnPred q) flipLabel m
      match r.2 with
      | none => (.null, doc)
      | some (d, cs) => (.val (.elem d cs), { doc with main := some r.1 })

/-- A click event as `toggleComments` uses it: only the `listener` property
written on its target is observable. -/
structure ClickEvent where
  targetListener : Bool
  deriving Repr, DecidableEq

/-- `toggleComments` from `main.js`: undefined when the event is absent or
the `postId` is missing; otherwise mark the event target, toggle the
comment section, then the button, and return the pair. -/
def toggleComments (ev : Option ClickEvent) (pid : Option Int) (doc : Doc) :
    JSRet (JSRet Node × JSRet Node) × Option ClickEvent × Doc :=
  match ev, pid with
  | none, _ => (.undef, none, doc)
  | some e, none => (.undef, some e, doc)
  | some e, some q =>
    let e' : ClickEvent := { e with targetListener := true }
    let rs := toggleCommentSection (some q) doc
    let rb := toggleCommentButton (some q) rs.2
    (.val (rs.1, rb.1), some e', rb.2)

/-- One step of the `deleteChildElements` loop: remove the last element
child when one exists. -/
def removeLastElem : List Node → Option (List Node)
  | [] => none
  | c :: cs =>
    match removeLastElem cs with
    | some cs' => some (c :: cs')
    | none => if c.isElem then some cs else none

theorem removeLastElem_count {cs cs' : List Node}
    (h : removeLastElem cs = some cs') : countElems cs' + 1 = countElems cs := by
  induction cs generalizing cs' with
  | nil => simp [removeLastElem] at h
  | cons c rest ih =>
    simp only [removeLastElem] at h
    cases hr : removeLastElem rest with
    | some r' =>
      simp only [hr, Option.some.injEq] at h
      subst h
      have := ih hr
      cases hc : c.isElem <;>
        simp [countElems, List.filter, hc] at this ⊢ <;> omega
    | none =>
      simp only [hr] at h
      cases hc : c.isElem with
      | true =>
        simp only [hc, if_true, Option.some.injEq] at h
        subst h
        simp [countElems, List.filter, hc]
      | false => simp [hc] at h

/-- The `while (child) removeChild(child)` loop of `deleteChildElements`:
repeatedly remove the last element child until none remains. -/
def delLoop (cs : List Node) : List Node :=
  match h : removeLastElem cs with
  | some cs' => delLoop cs'
  | none => cs
termination_by countElems cs
decreasing_by
  have := removeLastElem_count h
  omega

/-- `deleteChildElements` from `main.js`: undefined on any argument without
a (truthy) `tagName`, null and undefined included; otherwise remove element
children from the end until none remains and return the element. -/
def deleteChildElements (parentElement : JSRet Node) : JSRet Node :=
  match parentElement with
  | .undef => .undef
  | .null => .undef
  | .val (.text _) => .undef
  | .val (.elem d cs) =>
    if d.tag = "" then .undef
    else .val (.elem d (delLoop cs))

mutual
/-- The `addButtonListeners` traversal: for each button in document order,
when its `data-post-id` is truthy, attach a freshly allocated click
closure (`k` is the next fresh closure id). -/
def addPass (k : Nat) : Node → Node × Nat
  | .text s => (.text s, k)
  | .elem d cs =>
    let step : EData × Nat :=
      if d.tag = "button" && d.postId.isSome then
        ({ d with listeners := d.listeners ++ [k] }, k + 1)
      else (d, k)
    let r := addPassL step.2 cs
    (.elem step.1 r.1, r.2)

/-- `addPass` over a forest, threading the closure counter. -/
def addPassL (k : Nat) : List Node → List Node × Nat
  | [] => ([], k)
  | c :: cs =>
    let r := addPass k c
    let rs := addPassL r.2 cs
    (r.1 :: rs.1, rs.2)
end

mutual
/-- The `removeButtonListeners` traversal: for each button in document
order, when its `data-post-id` is truthy, call `removeEventListener` with a
freshly allocated closure; removal erases that closure's id, which a fresh
id never matches. -/
def removePass (k : Nat) : Node → Node × Nat
  | .text s => (.text s, k)
  | .elem d cs =>
    let step : EData × Nat :=
      if d.tag = "button" && d.postId.isSome then
        ({ d with listeners := d.listeners.erase k }, k + 1)
      else (d, k)
    let r := removePassL step.2 cs
    (.elem step.1 r.1, r.2)

/-- `removePass` over a forest, threading the closure counter. -/
def removePassL (k : Nat) : List Node → List Node × Nat
  | [] => ([], k)
  | c :: cs =>
    let r := removePass k c
    let rs := removePassL r.2 cs
    (r.1 :: rs.1, rs.2)
end

mutual
/-- The buttons of a subtree as nodes (the `querySelectorAll` NodeList). -/
def buttonNodes : Node → List Node
  | .text _ => []
  | .elem d cs => (if d.tag = "button" then [Node.elem d cs] else []) ++ buttonNodesL cs

/-- `buttonNodes` over a forest. -/
def buttonNodesL : List Node → List Node
  | [] => []
  | c :: cs => buttonNodes c ++ buttonNodesL cs
end

/-- `addButtonListeners` from `main.js`: null when no `<main>` element
exists; otherwise attach a fresh click closure to every button descendant
of `<main>` whose `data-post-id` is truthy, and return the buttons. -/
def addButtonListeners (doc : Doc) (k : Nat) : JSRet (List Node) × Doc × Nat :=
  match doc.main with
  | none => (.null, doc, k)
  | some (.text _) => (.val [], doc, k)
  | some (.elem d cs) =>
    let r := addPassL k cs
    (.val (buttonNodesL r.1), { doc with main := some (.elem d r.1) }, r.2)

/-- `removeButtonListeners` from `main.js`: null when no `<main>` element
exists; otherwise call `removeEventListener` with a fresh click closure on
every button descendant of `<main>` whose `data-post-id` is truthy, and
return the buttons. -/
def removeButtonListeners (doc : Doc) (k : Nat) : JSRet (List Node) × Doc × Nat :=
  match doc.main with
  | none => (.null, doc, k)
  | some (.text _) => (.val [], doc, k)
  | some (.elem d cs) =>
    let r := removePassL k cs
    (.val (buttonNodesL r.1), { doc with main := some (.elem d r.1) }, r.2)

/-- One comment article built by `createComments`: an h3 with the author
name, a paragraph with the body, a paragraph "From: {email}". -/
def commentArticle (c : Comment) : Node :=
  .elem { tag := "article", classes := [], textContent := "",
          postId := none, listeners := [], disabled := false, value := "" }
    [createElemWithText "h3" c.name none,
     createElemWithText "p" c.body none,
     createElemWithText "p" ("From: " ++ c.email) none]

/-- `createComments` from `main.js`: undefined on a falsy comment array,
otherwise a document fragment with one article per comment. -/
def createComments (comments : JSRet (List Comment)) : JSRet (List Node) :=
  match comments with
  | .undef => .undef
  | .null => .undef
  | .val cs => .val (cs.map commentArticle)

/-- `section.appendChild(fragment)` in `displayComments`: a null or
undefined fragment is not a node and raises a TypeError. -/
def appendFragment (parent : Node) (fragment : JSRet (List Node)) : Except JSError Node :=
  match fragment with
  | .undef => .error (.typeError "appendChild: parameter is not a node")
  | .null => .error (.typeError "appendChild: parameter is not a node")
  | .val xs => .ok (appendDomVal parent (.frag xs))

/-- `displayComments` from `main.js`: undefined on a missing `postId`;
otherwise build the hidden comments section for the post, fetch its
comments, and append the comment fragment — which raises a TypeError when
the fetch failed (null comments make `createComments` return undefined). -/
def displayComments (o : Oracle) (postId : Option Int) : Except JSError (JSRet Node) :=
  match postId with
  | none => .ok .undef
  | some pid =>
    let sec : Node :=
      .elem { tag := "section", classes := ["comments", "hide"], textContent := "",
              postId := some pid, listeners := [], disabled := false, value := "" } []
    match (getPostComments o (some pid)).result with
    | .error e => .error e
    | .ok comments =>
      match appendFragment sec (createComments comments) with
      | .error e => .error e
      | .ok sec' => .ok (.val sec')

/-- One post article built by `createPosts`, given the already fetched
author and comments section: h2 title, body, post id, author line,
catch-phrase, the toggle button carrying the post id, and the section. -/
def postArticle (p : Post) (author : User) (sec : Node) : Node :=
  .elem { tag := "article", classes := [], textContent := "",
          postId := none, listeners := [], disabled := false, value := "" }
    [createElemWithText "h2" p.title none,
     createElemWithText "p" p.body none,
     createElemWithText "p" ("Post ID: " ++ toString p.id) none,
     createElemWithText "p" ("Author: " ++ author.name ++ " with " ++ author.company.name) none,
     createElemWithText "p" author.company.catchPhrase none,
     .elem { tag := "button", classes := [], textContent := "Show Comments",
             postId := some p.id, listeners := [], disabled := false, value := "" } [],
     sec]

/-- The body of `createPosts` for one post: fetch the author — reading
`.name` of a null author raises a TypeError — then build and append the
comments section. -/
def buildArticle (o : Oracle) (p : Post) : Except JSError Node :=
  match (getUser o (some p.userId)).result with
  | .error e => .error e
  | .ok .null => .error (.typeError "cannot read properties of null")
  | .ok .undef => .error (.typeError "cannot read properties of undefined")
  | .ok (.val author) =>
    match displayComments o (some p.id) with
    | .error e => .error e
    | .ok .undef => .error (.typeError "appendChild: parameter is not a node")
    | .ok .null => .error (.typeError "appendChild: parameter is not a node")
    | .ok (.val sec) => .ok (postArticle p author sec)

/-- The `for (const post of posts)` loop of `createPosts`: build each
article in order, stopping at the first raised error. -/
def createPostsLoop (o : Oracle) : List Post → Except JSError (List Node)
  | [] => .ok []
  | p :: ps =>
    match buildArticle o p with
    | .error e => .error e
    | .ok a =>
      match createPostsLoop o ps with
      | .error e => .error e
      | .ok rest => .ok (a :: rest)

/-- `createPosts` from `main.js`: undefined on a falsy or empty post array;
otherwise a fragment with one article per post, each built with its fetched
author and comments. -/
def createPosts (o : Oracle) (posts : JSRet (List Post)) : Except JSError (JSRet (List Node)) :=
  match posts with
  | .undef => .ok .undef
  | .null => .ok .undef
  | .val ps =>
    if ps.length < 1 then .ok .undef
    else
      match createPostsLoop o ps with
      | .error e => .error e
      | .ok arts => .ok (.val arts)

/-- The placeholder paragraph `displayPosts` falls back to. -/
def defaultParagraph : Node :=
  createElemWithText "p" "Select an Employee to display their posts." (some "default-text")

/-- `displayPosts` from `main.js`: null when no `<main>` element exists;
otherwise build the posts fragment (propagating anything it raises), fall
back to the placeholder paragraph when it is falsy or empty, append it to
`<main>`, and return it. -/
def displayPosts (o : Oracle) (posts : JSRet (List Post)) (doc : Doc) :
    Except JSError (JSRet DomVal × Doc) :=
  match doc.main with
  | none => .ok (.null, doc)
  | some mainEl =>
    match createPosts o posts with
    | .error e => .error e
    | .ok elementJS =>
      let el : DomVal :=
        match elementJS with
        | .val arts =>
          if DomVal.childElementCount (.frag arts) < 1 then .node defaultParagraph
          else .frag arts
        | _ => .node defaultParagraph
      .ok (.val el, { doc with main := some (appendDomVal mainEl el) })

/-- The quadruple `refreshPosts` returns. -/
def RefreshRet : Type :=
  JSRet (List Node) × JSRet Node × JSRet DomVal × JSRet (List Node)

/-- `refreshPosts` from `main.js`: undefined on a falsy post array, leaving
everything untouched; otherwise remove button listeners, delete `<main>`'s
element children, display the posts, re-attach button listeners, and
return the four intermediate results. -/
def refreshPosts (o : Oracle) (posts : JSRet (List Post)) (doc : Doc) (k : Nat) :
    Except JSError (JSRet RefreshRet × Doc × Nat) :=
  match posts with
  | .undef => .ok (.undef, doc, k)
  | .null => .ok (.undef, doc, k)
  | .val ps =>
    let r1 := removeButtonListeners doc k
    let mainElement : JSRet Node :=
      match r1.2.1.main with
      | some m => .val m
      | none => .null
    let mainRet := deleteChildElements mainElement
    let doc2 : Doc :=
      match mainRet with
      | .val m' => { r1.2.1 with main := some m' }
      | _ => r1.2.1
    match displayPosts o (.val ps) doc2 with
    | .error e => .error e
    | .ok (fragment, doc3) =>
      let r4 := addButtonListeners doc3 r1.2.2
      .ok (.val (r1.1, mainRet, fragment, r4.1), r4.2.1, r4.2.2)

/-- A change event as `selectMenuChangeEventHandler` uses it: whether
`event.target` is present, and the outcome of
`parseInt(event?.target?.value)` — `some n` when `Number.isInteger` holds
of it, `none` when it is NaN. -/
structure ChangeEvent where
  hasTarget : Bool
  parsed : Option Int
  deriving Repr, DecidableEq

/-- The triple `selectMenuChangeEventHandler` returns. -/
def HandlerRet : Type :=
  Int × JSRet (List Post) × JSRet RefreshRet

/-- `selectMenuChangeEventHandler` from `main.js`: undefined on a falsy
event; otherwise disable the select menu, resolve the user id (the parsed
integer, or the fallback id 1), fetch that user's posts, refresh the page
with them, re-enable the select menu, and return the triple. -/
def selectMenuChangeEventHandler (o : Oracle) (ev : Option ChangeEvent) (doc : Doc) (k : Nat) :
    Except JSError (JSRet HandlerRet × Doc × Nat) :=
  match ev with
  | none => .ok (.undef, doc, k)
  | some e =>
    let doc1 : Doc := if e.hasTarget then { doc with selectDisabled := true } else doc
    let userId : Int :=
      match e.parsed with
      | some n => n
      | none => 1
    let postsCall := getUserPosts o (some userId)
    match postsCall.result with
    | .error err => .error err
    | .ok posts =>
      match refreshPosts o posts doc1 k with
      | .error err => .error err
      | .ok (refreshPostsArray, doc2, k2) =>
        let doc3 : Doc := if e.hasTarget then { doc2 with selectDisabled := false } else doc2
        .ok (.val (userId, posts, refreshPostsArray), doc3, k2)

theorem removeLastElem_none_filter {cs : List Node} (h : removeLastElem cs = none) :
    cs.filter (fun c => !c.isElem) = cs := by
  induction cs with
  | nil => simp
  | cons c rest ih =>
    simp only [removeLastElem] at h
    cases hr : removeLastElem rest with
    | some r' => simp [hr] at h
    | none =>
      simp only [hr] at h
      cases hc : c.isElem with
      | true => simp [hc] at h
      | false => simp [List.filter, hc, ih hr]

theorem removeLastElem_some_filter {cs cs' : List Node} (h : removeLastElem cs = some cs') :
    cs'.filter (fun c => !c.isElem) = cs.filter (fun c => !c.isElem) := by
  induction cs generalizing cs' with
  | nil => simp [removeLastElem] at h
  | cons c rest ih =>
    simp only [removeLastElem] at h
    cases hr : removeLastElem rest with
    | some r' =>
      simp only [hr, Option.some.injEq] at h
      subst h
      simp [List.filter, ih hr]
    | none =>
      simp only [hr] at h
      cases hc : c.isElem with
      | true =>
        simp only [hc, if_true, Option.some.injEq] at h
        subst h
        simp [List.filter, hc]
      | false => simp [hc] at h

theorem delLoop_eq_filter (cs : List Node) :
    delLoop cs = cs.filter (fun c => !c.isElem) := by
  induction cs using delLoop.induct with
  | case1 cs cs' h ih =>
    unfold delLoop
    split
    · next a heq =>
      rw [heq] at h
      cases h
      rw [ih, removeLastElem_some_filter heq]
    · next heq =>
      rw [heq] at h
      cases h
  | case2 cs h =>
    unfold delLoop
    split
    · next a heq =>
      rw [heq] at h
      cases h
    · next heq =>
      exact (removeLastElem_none_filter heq).symm

/-- C10: `deleteChildElements` returns undefined on any argument without a
tag name (undefined, null, a text node, or a tagless element) and, on a DOM
element, returns that element with all element children removed from its
child list, non-element children kept in place, leaving zero element
children. -/
theorem deleteChildElements_spec :
    deleteChildElements .undef = .undef ∧
    deleteChildElements .null = .undef ∧
    (∀ s, deleteChildElements (.val (.text s)) = .undef) ∧
    ∀ (d : EData) (cs : List Node), d.tag ≠ "" →
      deleteChildElements (.val (.elem d cs)) =
        .val (.elem d (cs.filter (fun c => !c.isElem))) ∧
      countElems (cs.filter (fun c => !c.isElem)) = 0 := by
  refine ⟨rfl, rfl, fun s => rfl, fun d cs hd => ⟨?_, ?_⟩⟩
  · simp [deleteChildElements, hd, delLoop_eq_filter]
  · simp only [countElems, List.filter_filter]
    have : ∀ c : Node, (c.isElem && !c.isElem) = false := by
      intro c; cases c.isElem <;> rfl
    simp [this]

/-- Sample element data used by concrete witnesses. -/
def sampleData (tag : String) : EData :=
  { tag := tag, classes := [], textContent := "", postId := none,
    listeners := [], disabled := false, value := "" }

theorem deleteChildElements_spec_witness :
    ("div" : String) ≠ "" ∧
    (deleteChildElements (.val (.elem (sampleData "div")
        [Node.text "a", Node.elem (sampleData "span") [], Node.text "b"])) =
      .val (.elem (sampleData "div")
        ([Node.text "a", Node.elem (sampleData "span") [], Node.text "b"].filter
          (fun c => !c.isElem))) ∧
      countElems ([Node.text "a", Node.elem (sampleData "span") [], Node.text "b"].filter
          (fun c => !c.isElem)) = 0) :=
  ⟨by decide,
   deleteChildElements_spec.2.2.2 (sampleData "div")
     [Node.text "a", Node.elem (sampleData "span") [], Node.text "b"] (by decide)⟩

/-- C3: every fetch function, on a failing network interaction (rejection
or a non-2xx response), returns the null sentinel to its caller without
raising, and logs a diagnostic to the error channel. -/
theorem fetch_failure_returns_null (o : Oracle) (uid uid2 pid : Int) :
    (o.usersReq.isFail = true →
      getUsers o = ⟨.ok .null, [fetchErrorLog], true⟩) ∧
    ((o.postsReq uid).isFail = true →
      getUserPosts o (some uid) = ⟨.ok .null, [fetchErrorLog], true⟩) ∧
    ((o.userReq uid2).isFail = true →
      getUser o (some uid2) = ⟨.ok .null, [fetchErrorLog], true⟩) ∧
    ((o.commentsReq pid).isFail = true →
      getPostComments o (some pid) = ⟨.ok .null, [fetchErrorLog], true⟩) := by
  refine ⟨fun h => ?_, fun h => ?_, fun h => ?_, fun h => ?_⟩
  · cases ho : o.usersReq <;> simp [FetchOutcome.isFail, ho] at h ⊢ <;> simp [getUsers, ho]
  · cases ho : o.postsReq uid <;> simp [FetchOutcome.isFail, ho] at h ⊢ <;>
      simp [getUserPosts, ho]
  · cases ho : o.userReq uid2 <;> simp [FetchOutcome.isFail, ho] at h ⊢ <;>
      simp [getUser, ho]
  · cases ho : o.commentsReq pid <;> simp [FetchOutcome.isFail, ho] at h ⊢ <;>
      simp [getPostComments, ho]

/-- Oracle whose every request fails, used by concrete witnesses. -/
def failOracle : Oracle :=
  { usersReq := .reject,
    userReq := fun _ => .reject,
    postsReq := fun _ => .notOk,
    commentsReq := fun _ => .reject }

theorem fetch_failure_returns_null_witness :
    getUsers failOracle = ⟨.ok .null, [fetchErrorLog], true⟩ ∧
    getUserPosts failOracle (some 1) = ⟨.ok .null, [fetchErrorLog], true⟩ ∧
    getUser failOracle (some 1) = ⟨.ok .null, [fetchErrorLog], true⟩ ∧
    getPostComments failOracle (some 1) = ⟨.ok .null, [fetchErrorLog], true⟩ :=
  ⟨(fetch_failure_returns_null failOracle 1 1 1).1 rfl,
   (fetch_failure_returns_null failOracle 1 1 1).2.1 rfl,
   (fetch_failure_returns_null failOracle 1 1 1).2.2.1 rfl,
   (fetch_failure_returns_null failOracle 1 1 1).2.2.2 rfl⟩

/-- Oracle whose every request succeeds with an empty or fixed payload,
used by concrete counterexamples. -/
def okOracle : Oracle :=
  { usersReq := .ok [],
    userReq := fun _ => .ok { id := 1, name := "Leanne",
                              company := { name := "Romaguera", catchPhrase := "synergy" } },
    postsReq := fun _ => .ok [],
    commentsReq := fun _ => .ok [] }

/-- C4 counterexample: `getUsers` takes no identifier argument, so a call
with no argument is its ordinary call — it does issue its network request
and, on success, returns the payload rather than the undefined sentinel. -/
theorem getUsers_no_arg_requests :
    (getUsers okOracle).requested = true ∧
    (getUsers okOracle).result ≠ .ok .undef := by
  refine ⟨rfl, fun h => ?_⟩
  simp [getUsers, okOracle] at h

/-- C4 (amended): the fetch functions with a required identifier —
`getUserPosts`, `getUser`, `getPostComments` — return the undefined
sentinel without issuing any network request when called with no argument;
`getUsers` has no identifier to omit and always issues its request. -/
theorem fetch_missing_arg_returns_undef (o : Oracle) :
    getUserPosts o none = ⟨.ok .undef, [], false⟩ ∧
    getUser o none = ⟨.ok .undef, [], false⟩ ∧
    getPostComments o none = ⟨.ok .undef, [], false⟩ ∧
    (getUsers o).requested = true := by
  refine ⟨rfl, rfl, rfl, ?_⟩
  cases ho : o.usersReq <;> simp [getUsers, ho]

theorem foldl_push_eq_map {α β : Type} (g : α → β) (l : List α) (acc : List β) :
    l.foldl (fun acc u => acc ++ [g u]) acc = acc ++ l.map g := by
  induction l generalizing acc with
  | nil => simp
  | cons x xs ih => simp [List.foldl, ih]

/-- C5: `createSelectOptions` maps a defined-but-empty user array to an
empty option array, an absent input to the undefined sentinel, and any user
array to one option per user in input order with the option's value the
user's id and its label the user's name. -/
theorem createSelectOptions_spec :
    createSelectOptions (some []) = some [] ∧
    createSelectOptions none = none ∧
    ∀ users : List User,
      createSelectOptions (some users) =
        some (users.map fun u => { value := toString u.id, label := u.name }) := by
  refine ⟨rfl, rfl, fun users => ?_⟩
  simp [createSelectOptions, foldl_push_eq_map]

/-- C9: `refreshPosts` on a falsy post list (the null failure sentinel of
`getUserPosts`, or undefined) returns undefined at once, raising nothing,
with the document and the listener state untouched. -/
theorem refreshPosts_falsy_noop (o : Oracle) (doc : Doc) (k : Nat) :
    refreshPosts o .null doc k = .ok (.undef, doc, k) ∧
    refreshPosts o .undef doc k = .ok (.undef, doc, k) :=
  ⟨rfl, rfl⟩

/-- A sample post used by concrete exhibits. -/
def samplePost : Post :=
  { id := 1, userId := 1, title := "qui est esse", body := "est rerum" }

/-- C2 is violated by the code: with a failing comments fetch,
`getPostComments` returns null, `createComments` then returns undefined,
and `displayComments` raises a TypeError at `section.appendChild`; with a
failing user fetch, `createPosts` raises a TypeError reading `.name` of the
null author. -/
theorem displayComments_createPosts_raise :
    displayComments failOracle (some 1) =
      .error (.typeError "appendChild: parameter is not a node") ∧
    createPosts failOracle (.val [samplePost]) =
      .error (.typeError "cannot read properties of null") := by
  exact ⟨rfl, rfl⟩

mutual
theorem updFirst_none_fst (p : EData → Bool) (f : EData → EData) (t : Node)
    (h : (updFirst p f t).2 = none) : (updFirst p f t).1 = t := by
  cases t with
  | text s => simp [updFirst]
  | elem d cs =>
    by_cases hp : p d
    · simp [updFirst, hp] at h
    · simp only [updFirst, hp, if_false, Bool.false_eq_true] at h ⊢
      simp at h ⊢
      exact updFirstL_none_fst p f cs h

theorem updFirstL_none_fst (p : EData → Bool) (f : EData → EData) (l : List Node)
    (h : (updFirstL p f l).2 = none) : (updFirstL p f l).1 = l := by
  cases l with
  | nil => simp [updFirstL]
  | cons c cs =>
    simp only [updFirstL] at h ⊢
    cases hr : (updFirst p f c).2 with
    | some m => simp [hr] at h
    | none =>
      simp only [hr] at h ⊢
      simp at h ⊢
      exact ⟨updFirst_none_fst p f c hr, updFirstL_none_fst p f cs h⟩
end

mutual
theorem updFirst_snd_eq (p : EData → Bool) (f : EData → EData) (t : Node) :
    (updFirst p f t).2 = ((updFirst p id t).2).map (fun x => (f x.1, x.2)) := by
  cases t with
  | text s => simp [updFirst]
  | elem d cs =>
    by_cases hp : p d
    · simp [updFirst, hp]
    · simp only [updFirst, if_neg hp]
      exact updFirstL_snd_eq p f cs

theorem updFirstL_snd_eq (p : EData → Bool) (f : EData → EData) (l : List Node) :
    (updFirstL p f l).2 = ((updFirstL p id l).2).map (fun x => (f x.1, x.2)) := by
  cases l with
  | nil => simp [updFirstL]
  | cons c cs =>
    simp only [updFirstL]
    cases hr : (updFirst p id c).2 with
    | some m =>
      have h2 : (updFirst p f c).2 = some (f m.1, m.2) := by
        rw [updFirst_snd_eq p f c, hr]; rfl
      simp [h2, hr]
    | none =>
      have h2 : (updFirst p f c).2 = none := by
        rw [updFirst_snd_eq p f c, hr]; rfl
      simp only [h2, hr]
      exact updFirstL_snd_eq p f cs
end

mutual
theorem updFirst_refind (p : EData → Bool) (f : EData → EData)
    (hp : ∀ d, p (f d) = p d) (t : Node) :
    (updFirst p id (updFirst p f t).1).2 =
      ((updFirst p id t).2).map (fun x => (f x.1, x.2)) := by
  cases t with
  | text s => simp [updFirst]
  | elem d cs =>
    by_cases hd : p d
    · have hfd : p (f d) = true := by rw [hp d]; exact hd
      simp [updFirst, hd, hfd]
    · simp only [updFirst, if_neg hd]
      exact updFirstL_refind p f hp cs

theorem updFirstL_refind (p : EData → Bool) (f : EData → EData)
    (hp : ∀ d, p (f d) = p d) (l : List Node) :
    (updFirstL p id (updFirstL p f l).1).2 =
      ((updFirstL p id l).2).map (fun x => (f x.1, x.2)) := by
  cases l with
  | nil => simp [updFirstL]
  | cons c cs =>
    cases hr : (updFirst p id c).2 with
    | some m =>
      have h2 : (updFirst p f c).2 = some (f m.1, m.2) := by
        rw [updFirst_snd_eq p f c, hr]; rfl
      have h3 : (updFirst p id (updFirst p f c).1).2 = some (f m.1, m.2) := by
        rw [updFirst_refind p f hp c, hr]; rfl
      simp only [updFirstL, h2, h3, hr]
      rfl
    | none =>
      have h2 : (updFirst p f c).2 = none := by
        rw [updFirst_snd_eq p f c, hr]; rfl
      have h1 : (updFirst p f c).1 = c := updFirst_none_fst p f c h2
      simp only [updFirstL, h2, h1, hr]
      exact updFirstL_refind p f hp cs
end

mutual
theorem updFirst_cross (p q : EData → Bool) (f : EData → EData)
    (hq : ∀ d, q (f d) = q d) (hdisj : ∀ d, p d = true → q d = false) (t : Node) :
    ((updFirst q id (updFirst p f t).1).2).map (fun x => x.1) =
      ((updFirst q id t).2).map (fun x => x.1) := by
  cases t with
  | text s => simp [updFirst]
  | elem d cs =>
    by_cases hd : p d
    · have hqd : ¬ (q d = true) := by simp [hdisj d hd]
      have hqfd : ¬ (q (f d) = true) := by simp [hq d, hdisj d hd]
      simp only [updFirst, if_pos hd]
      simp only [updFirst, if_neg hqd, if_neg hqfd]
    · simp only [updFirst, if_neg hd]
      by_cases hqd : q d
      · simp [updFirst, hqd]
      · simp only [updFirst, if_neg hqd]
        exact updFirstL_cross p q f hq hdisj cs

theorem updFirstL_cross (p q : EData → Bool) (f : EData → EData)
    (hq : ∀ d, q (f d) = q d) (hdisj : ∀ d, p d = true → q d = false) (l : List Node) :
    ((updFirstL q id (updFirstL p f l).1).2).map (fun x => x.1) =
      ((updFirstL q id l).2).map (fun x => x.1) := by
  cases l with
  | nil => simp [updFirstL]
  | cons c cs =>
    cases hr : (updFirst p f c).2 with
    | some m =>
      have hn := updFirst_cross p q f hq hdisj c
      cases hq1 : (updFirst q id c).2 with
      | some mq =>
        have hmap : ((updFirst q id (updFirst p f c).1).2).map (fun x => x.1) = some mq.1 := by
          rw [hn, hq1]; rfl
        cases hz : (updFirst q id (updFirst p f c).1).2 with
        | some x =>
          have hx1 : x.1 = mq.1 := by
            rw [hz] at hmap
            exact Option.some.inj hmap
          simp only [updFirstL, hr, hz, hq1]
          simp [hx1]
        | none => rw [hz] at hmap; simp at hmap
      | none =>
        have hmap : ((updFirst q id (updFirst p f c).1).2).map (fun x => x.1) = none := by
          rw [hn, hq1]; rfl
        have hz : (updFirst q id (updFirst p f c).1).2 = none :=
          Option.map_eq_none.mp hmap
        simp only [updFirstL, hr, hz, hq1]
    | none =>
      have h1 : (updFirst p f c).1 = c := updFirst_none_fst p f c hr
      cases hq1 : (updFirst q id c).2 with
      | some mq => simp only [updFirstL, hr, h1, hq1]
      | none =>
        simp only [updFirstL, hr, h1, hq1]
        exact updFirstL_cross p q f hq hdisj cs
end

theorem secPred_toggleHide (pid : Int) (d : EData) :
    secPred pid (toggleHide d) = secPred pid d := by
  unfold toggleHide
  split <;> rfl

theorem secPred_flipLabel (pid : Int) (d : EData) :
    secPred pid (flipLabel d) = secPred pid d := rfl

theorem btnPred_toggleHide (pid : Int) (d : EData) :
    btnPred pid (toggleHide d) = btnPred pid d := by
  unfold toggleHide
  split <;> rfl

theorem btnPred_flipLabel (pid : Int) (d : EData) :
    btnPred pid (flipLabel d) = btnPred pid d := rfl

theorem secPred_not_btnPred (pid : Int) (d : EData) (h : secPred pid d = true) :
    btnPred pid d = false := by
  simp only [secPred, Bool.and_eq_true] at h
  simp only [btnPred, Bool.and_eq_false_iff]
  left
  simp at h ⊢
  rw [h.1]
  decide

theorem btnPred_not_secPred (pid : Int) (d : EData) (h : btnPred pid d = true) :
    secPred pid d = false := by
  simp only [btnPred, Bool.and_eq_true] at h
  simp only [secPred, Bool.and_eq_false_iff]
  left
  simp at h ⊢
  rw [h.1]
  decide

theorem mem_toggleHide (d : EData) :
    ("hide" ∈ (toggleHide d).classes) ↔ ¬ ("hide" ∈ d.classes) := by
  unfold toggleHide
  split
  · next h => simp [List.mem_filter, h]
  · next h => simp [h]

theorem mem_toggleHide_toggleHide (d : EData) :
    ("hide" ∈ (toggleHide (toggleHide d)).classes) ↔ ("hide" ∈ d.classes) := by
  rw [mem_toggleHide, mem_toggleHide, not_not]

theorem flipLabel_flipLabel (d : EData)
    (h : d.textContent = "Show Comments" ∨ d.textContent = "Hide Comments") :
    (flipLabel (flipLabel d)).textContent = d.textContent := by
  rcases h with h | h <;> simp [flipLabel, h]

theorem map_fst_eq_some {t : Option (EData × List Node)} {v : EData}
    (h : t.map (fun x => x.1) = some v) : ∃ x, t = some x ∧ x.1 = v := by
  cases t with
  | none => simp at h
  | some x => exact ⟨x, rfl, by simpa using h⟩

/-- C6: for every postId whose comment section and button exist in the
document and whose button label is one of the two fixed strings, applying
the toggle (`toggleCommentSection` followed by `toggleCommentButton`, as
`toggleComments` does) twice restores both the section's hidden/shown state
(presence of the `hide` class) and the button's label to their original
values. -/
theorem toggle_twice_restores (pid : Int) (doc : Doc) (m : Node)
    (hm : doc.main = some m)
    (s0 b0 : EData × List Node)
    (hs : findFirst (secPred pid) m = some s0)
    (hb : findFirst (btnPred pid) m = some b0)
    (hlabel : b0.1.textContent = "Show Comments" ∨ b0.1.textContent = "Hide Comments") :
    ∃ m4 : Node,
      (toggleCommentButton (some pid) (toggleCommentSection (some pid)
        (toggleCommentButton (some pid)
          (toggleCommentSection (some pid) doc).2).2).2).2.main = some m4 ∧
      (∃ s4, findFirst (secPred pid) m4 = some s4 ∧
        (("hide" ∈ s4.1.classes) ↔ ("hide" ∈ s0.1.classes))) ∧
      (∃ b4, findFirst (btnPred pid) m4 = some b4 ∧
        b4.1.textContent = b0.1.textContent) := by
  have hS : ∀ d, secPred pid (toggleHide d) = secPred pid d := secPred_toggleHide pid
  have hB : ∀ d, btnPred pid (flipLabel d) = btnPred pid d := btnPred_flipLabel pid
  have hBS : ∀ d, secPred pid (flipLabel d) = secPred pid d := secPred_flipLabel pid
  have hSB : ∀ d, btnPred pid (toggleHide d) = btnPred pid d := btnPred_toggleHide pid
  have hdSB : ∀ d, secPred pid d = true → btnPred pid d = false := secPred_not_btnPred pid
  have hdBS : ∀ d, btnPred pid d = true → secPred pid d = false := btnPred_not_secPred pid
  have hs' : (updFirst (secPred pid) id m).2 = some s0 := hs
  have hb' : (updFirst (btnPred pid) id m).2 = some b0 := hb
  -- first section toggle
  have h1 : (updFirst (secPred pid) toggleHide m).2 = some (toggleHide s0.1, s0.2) := by
    rw [updFirst_snd_eq, hs']; rfl
  have e1 : toggleCommentSection (some pid) doc =
      (.val (.elem (toggleHide s0.1) s0.2),
       { doc with main := some (updFirst (secPred pid) toggleHide m).1 }) := by
    simp only [toggleCommentSection, hm, h1]
  -- the button in the once-section-toggled tree
  have cB1 : (findFirst (btnPred pid)
        (updFirst (secPred pid) toggleHide m).1).map (fun x => x.1) = some b0.1 := by
    have hc := updFirst_cross (secPred pid) (btnPred pid) toggleHide hSB hdSB m
    unfold findFirst
    rw [hc, hb']
    rfl
  obtain ⟨x1, hx1, hx1v⟩ := map_fst_eq_some cB1
  have hx1' : (updFirst (btnPred pid) id (updFirst (secPred pid) toggleHide m).1).2
      = some x1 := hx1
  -- first button toggle
  have h2 : (updFirst (btnPred pid) flipLabel (updFirst (secPred pid) toggleHide m).1).2
      = some (flipLabel x1.1, x1.2) := by
    rw [updFirst_snd_eq, hx1']; rfl
  have e2 : toggleCommentButton (some pid)
        { doc with main := some (updFirst (secPred pid) toggleHide m).1 } =
      (.val (.elem (flipLabel x1.1) x1.2),
       { doc with main := some (updFirst (btnPred pid) flipLabel
           (updFirst (secPred pid) toggleHide m).1).1 }) := by
    simp only [toggleCommentButton, h2]
  -- the section in the once-everything-toggled tree
  have rS1 : (updFirst (secPred pid) id (updFirst (secPred pid) toggleHide m).1).2
      = some (toggleHide s0.1, s0.2) := by
    rw [updFirst_refind (secPred pid) toggleHide hS m, hs']
    rfl
  have cS2 : (findFirst (secPred pid)
        (updFirst (btnPred pid) flipLabel (updFirst (secPred pid) toggleHide m).1).1).map
          (fun x => x.1) = some (toggleHide s0.1) := by
    have hc := updFirst_cross (btnPred pid) (secPred pid) flipLabel hBS hdBS
        (updFirst (secPred pid) toggleHide m).1
    unfold findFirst
    rw [hc, rS1]
    rfl
  obtain ⟨x2, hx2, hx2v⟩ := map_fst_eq_some cS2
  have hx2' : (updFirst (secPred pid) id
        (updFirst (btnPred pid) flipLabel (updFirst (secPred pid) toggleHide m).1).1).2
      = some x2 := hx2
  -- second section toggle
  have h3 : (updFirst (secPred pid) toggleHide
        (updFirst (btnPred pid) flipLabel (updFirst (secPred pid) toggleHide m).1).1).2
      = some (toggleHide x2.1, x2.2) := by
    rw [updFirst_snd_eq, hx2']; rfl
  have e3 : toggleCommentSection (some pid)
        { doc with main := some (updFirst (btnPred pid) flipLabel
            (updFirst (secPred pid) toggleHide m).1).1 } =
      (.val (.elem (toggleHide x2.1) x2.2),
       { doc with main := some (updFirst (secPred pid) toggleHide
           (updFirst (btnPred pid) flipLabel
             (updFirst (secPred pid) toggleHide m).1).1).1 }) := by
    simp only [toggleCommentSection, h3]
  -- the button after the first round and the second section toggle
  have rB2 : (updFirst (btnPred pid) id
        (updFirst (btnPred pid) flipLabel (updFirst (secPred pid) toggleHide m).1).1).2
      = some (flipLabel x1.1, x1.2) := by
    rw [updFirst_refind (btnPred pid) flipLabel hB
        (updFirst (secPred pid) toggleHide m).1, hx1']
    rfl
  have cB3 : (findFirst (btnPred pid)
        (updFirst (secPred pid) toggleHide
          (updFirst (btnPred pid) flipLabel
            (updFirst (secPred pid) toggleHide m).1).1).1).map (fun x => x.1)
      = some (flipLabel x1.1) := by
    have hc := updFirst_cross (secPred pid) (btnPred pid) toggleHide hSB hdSB
        (updFirst (btnPred pid) flipLabel (updFirst (secPred pid) toggleHide m).1).1
    unfold findFirst
    rw [hc, rB2]
    rfl
  obtain ⟨x3, hx3, hx3v⟩ := map_fst_eq_some cB3
  have hx3' : (updFirst (btnPred pid) id
        (updFirst (secPred pid) toggleHide
          (updFirst (btnPred pid) flipLabel
            (updFirst (secPred pid) toggleHide m).1).1).1).2 = some x3 := hx3
  -- second button toggle
  have h4 : (updFirst (btnPred pid) flipLabel
        (updFirst (secPred pid) toggleHide
          (updFirst (btnPred pid) flipLabel
            (updFirst (secPred pid) toggleHide m).1).1).1).2
      = some (flipLabel x3.1, x3.2) := by
    rw [updFirst_snd_eq, hx3']; rfl
  have e4 : toggleCommentButton (some pid)
        { doc with main := some (updFirst (secPred pid) toggleHide
            (updFirst (btnPred pid) flipLabel
              (updFirst (secPred pid) toggleHide m).1).1).1 } =
      (.val (.elem (flipLabel x3.1) x3.2),
       { doc with main := some (updFirst (btnPred pid) flipLabel
           (updFirst (secPred pid) toggleHide
             (updFirst (btnPred pid) flipLabel
               (updFirst (secPred pid) toggleHide m).1).1).1).1 }) := by
    simp only [toggleCommentButton, h4]
  -- the final tree and its section and button
  have rS3 : (updFirst (secPred pid) id
        (updFirst (secPred pid) toggleHide
          (updFirst (btnPred pid) flipLabel
            (updFirst (secPred pid) toggleHide m).1).1).1).2
      = some (toggleHide x2.1, x2.2) := by
    rw [updFirst_refind (secPred pid) toggleHide hS
        (updFirst (btnPred pid) flipLabel (updFirst (secPred pid) toggleHide m).1).1, hx2']
    rfl
  have cS4 : (findFirst (secPred pid)
        (updFirst (btnPred pid) flipLabel
          (updFirst (secPred pid) toggleHide
            (updFirst (btnPred pid) flipLabel
              (updFirst (secPred pid) toggleHide m).1).1).1).1).map (fun x => x.1)
      = some (toggleHide x2.1) := by
    have hc := updFirst_cross (btnPred pid) (secPred pid) flipLabel hBS hdBS
        (updFirst (secPred pid) toggleHide
          (updFirst (btnPred pid) flipLabel
            (updFirst (secPred pid) toggleHide m).1).1).1
    unfold findFirst
    rw [hc, rS3]
    rfl
  obtain ⟨s4, hs4, hs4v⟩ := map_fst_eq_some cS4
  have rB4 : findFirst (btnPred pid)
        (updFirst (btnPred pid) flipLabel
          (updFirst (secPred pid) toggleHide
            (updFirst (btnPred pid) flipLabel
              (updFirst (secPred pid) toggleHide m).1).1).1).1
      = some (flipLabel x3.1, x3.2) := by
    unfold findFirst
    rw [updFirst_refind (btnPred pid) flipLabel hB
        (updFirst (secPred pid) toggleHide
          (updFirst (btnPred pid) flipLabel
            (updFirst (secPred pid) toggleHide m).1).1).1, hx3']
    rfl
  refine ⟨_, ?_, ⟨s4, hs4, ?_⟩, ⟨(flipLabel x3.1, x3.2), rB4, ?_⟩⟩
  · simp only [e1, e2, e3, e4]
  · rw [hs4v, hx2v]
    exact mem_toggleHide_toggleHide s0.1
  · show (flipLabel x3.1).textContent = b0.1.textContent
    rw [hx3v, hx1v]
    exact flipLabel_flipLabel b0.1 hlabel

/-- Concrete comment section used by witnesses. -/
def sectionData : EData :=
  { tag := "section", classes := ["comments", "hide"], textContent := "",
    postId := some 1, listeners := [], disabled := false, value := "" }

/-- Concrete toggle button used by witnesses. -/
def buttonData : EData :=
  { tag := "button", classes := [], textContent := "Show Comments",
    postId := some 1, listeners := [], disabled := false, value := "" }

/-- Concrete `<main>` element holding one section and one button. -/
def sampleMain : Node :=
  .elem (sampleData "main") [.elem sectionData [], .elem buttonData []]

/-- Concrete document used by witnesses. -/
def sampleDoc : Doc :=
  { main := some sampleMain, selectDisabled := false }

theorem toggle_twice_restores_witness :
    ∃ m4 : Node,
      (toggleCommentButton (some 1) (toggleCommentSection (some 1)
        (toggleCommentButton (some 1)
          (toggleCommentSection (some 1) sampleDoc).2).2).2).2.main = some m4 ∧
      (∃ s4, findFirst (secPred 1) m4 = some s4 ∧
        (("hide" ∈ s4.1.classes) ↔ ("hide" ∈ sectionData.classes))) ∧
      (∃ b4, findFirst (btnPred 1) m4 = some b4 ∧
        b4.1.textContent = buttonData.textContent) :=
  toggle_twice_restores 1 sampleDoc sampleMain rfl (sectionData, []) (buttonData, [])
    (by rfl) (by rfl) (Or.inl rfl)

theorem buttonsOfL_append (xs ys : List Node) :
    buttonsOfL (xs ++ ys) = buttonsOfL xs ++ buttonsOfL ys := by
  induction xs with
  | nil => simp [buttonsOfL]
  | cons c cs ih => simp [buttonsOfL, ih]

theorem buttonsOfL_filter_nonelem (cs : List Node) :
    buttonsOfL (cs.filter (fun c => !c.isElem)) = [] := by
  induction cs with
  | nil => simp [buttonsOfL]
  | cons c cs ih =>
    cases c with
    | elem d cs' => simpa [Node.isElem] using ih
    | text s => simpa [Node.isElem, List.filter, buttonsOfL, buttonsOf] using ih

theorem buttonsOf_createElemWithText (tag txt : String) (cn : Option String)
    (h : tag ≠ "button") : buttonsOf (createElemWithText tag txt cn) = [] := by
  simp [createElemWithText, buttonsOf, buttonsOfL, h]

theorem buttonsOf_commentArticle (c : Comment) : buttonsOf (commentArticle c) = [] := by
  simp [commentArticle, buttonsOf, buttonsOfL, createElemWithText]

theorem buttonsOfL_map_commentArticle (cs : List Comment) :
    buttonsOfL (cs.map commentArticle) = [] := by
  induction cs with
  | nil => simp [buttonsOfL]
  | cons c cs ih => simp [buttonsOfL, buttonsOf_commentArticle, ih]

theorem displayComments_buttons (o : Oracle) (pid : Int) (r : JSRet Node)
    (h : displayComments o (some pid) = .ok r) :
    ∃ sec, r = .val sec ∧ buttonsOf sec = [] := by
  simp only [displayComments] at h
  cases ho : o.commentsReq pid with
  | reject => simp [getPostComments, ho, createComments, appendFragment] at h
  | notOk => simp [getPostComments, ho, createComments, appendFragment] at h
  | ok cs =>
    simp only [getPostComments, ho, createComments, appendFragment, appendDomVal] at h
    injection h with hh
    refine ⟨_, hh.symm, ?_⟩
    simp [buttonsOf, buttonsOfL_map_commentArticle]

theorem buildArticle_buttons (o : Oracle) (p : Post) (a : Node)
    (h : buildArticle o p = .ok a) :
    ∀ b ∈ buttonsOf a, b.listeners = [] ∧ b.postId.isSome := by
  simp only [buildArticle] at h
  cases hu : (getUser o (some p.userId)).result with
  | error e => simp [hu] at h
  | ok author =>
    cases author with
    | undef => simp [hu] at h
    | null => simp [hu] at h
    | val u =>
      simp only [hu] at h
      cases hd : displayComments o (some p.id) with
      | error e => simp [hd] at h
      | ok secv =>
        obtain ⟨sec, hsec, hbs⟩ := displayComments_buttons o p.id secv hd
        subst hsec
        simp only [hd] at h
        cases h
        intro b hb
        simp only [postArticle, buttonsOf, buttonsOfL, hbs,
          createElemWithText] at hb
        simp at hb
        subst hb
        simp

theorem createPostsLoop_buttons (o : Oracle) (ps : List Post) (arts : List Node)
    (h : createPostsLoop o ps = .ok arts) :
    ∀ b ∈ buttonsOfL arts, b.listeners = [] ∧ b.postId.isSome := by
  induction ps generalizing arts with
  | nil =>
    simp only [createPostsLoop] at h
    cases h
    simp [buttonsOfL]
  | cons p ps ih =>
    simp only [createPostsLoop] at h
    cases ha : buildArticle o p with
    | error e => simp [ha] at h
    | ok a =>
      simp only [ha] at h
      cases hr : createPostsLoop o ps with
      | error e => simp [hr] at h
      | ok rest =>
        simp only [hr] at h
        cases h
        intro b hb
        simp only [buttonsOfL] at hb
        rcases List.mem_append.mp hb with hb' | hb'
        · exact buildArticle_buttons o p a ha b hb'
        · exact ih rest hr b hb'

theorem buttonsOf_defaultParagraph : buttonsOf defaultParagraph = [] := by
  simp [defaultParagraph, createElemWithText, buttonsOf, buttonsOfL]

mutual
theorem addPass_buttons (t : Node) :
    ∀ k : Nat, (∀ b ∈ buttonsOf t, b.listeners = [] ∧ b.postId.isSome) →
      ∀ b' ∈ buttonsOf (addPass k t).1, b'.listeners.length = 1 := by
  cases t with
  | text s => intro k hb b' hb'; simp [addPass, buttonsOf] at hb'
  | elem d cs =>
    intro k hb b' hb'
    by_cases hbtn : (d.tag = "button" && d.postId.isSome) = true
    · simp only [addPass, if_pos hbtn] at hb'
      have htag : d.tag = "button" := by
        simp only [Bool.and_eq_true] at hbtn
        simpa using hbtn.1
      have hsplit : buttonsOf (.elem { d with listeners := d.listeners ++ [k] }
            (addPassL (k + 1) cs).1)
          = { d with listeners := d.listeners ++ [k] } ::
              buttonsOfL (addPassL (k + 1) cs).1 := by
        simp [buttonsOf, htag]
      rw [hsplit] at hb'
      rcases List.mem_cons.mp hb' with hb' | hb'
      · subst hb'
        have hd := hb d (by simp [buttonsOf, htag])
        simp [hd.1]
      · refine addPassL_buttons cs (k + 1) ?_ b' hb'
        intro b hbm
        refine hb b ?_
        simp only [buttonsOf, htag]
        simp [hbm]
    · simp only [addPass, if_neg hbtn] at hb'
      by_cases htag : d.tag = "button"
      · have hsome : d.postId.isSome := by
          have := hb d (by simp [buttonsOf, htag])
          exact this.2
        exact absurd (by simp [htag, hsome]) hbtn
      · have hsplit : buttonsOf (.elem d (addPassL k cs).1)
            = buttonsOfL (addPassL k cs).1 := by
          simp [buttonsOf, htag]
        rw [hsplit] at hb'
        refine addPassL_buttons cs k ?_ b' hb'
        intro b hbm
        refine hb b ?_
        simp [buttonsOf, htag, hbm]

theorem addPassL_buttons (l : List Node) :
    ∀ k : Nat, (∀ b ∈ buttonsOfL l, b.listeners = [] ∧ b.postId.isSome) →
      ∀ b' ∈ buttonsOfL (addPassL k l).1, b'.listeners.length = 1 := by
  cases l with
  | nil => intro k hb b' hb'; simp [addPassL, buttonsOfL] at hb'
  | cons c cs =>
    intro k hb b' hb'
    simp only [addPassL, buttonsOfL] at hb'
    simp only [List.mem_append] at hb'
    rcases hb' with hb' | hb'
    · refine addPass_buttons c k ?_ b' hb'
      intro b hbm
      exact hb b (by simp [buttonsOfL, hbm])
    · refine addPassL_buttons cs (addPass k c).2 ?_ b' hb'
      intro b hbm
      exact hb b (by simp [buttonsOfL, hbm])
end

/-- Whether the document's `<main>` element, when present, has a non-empty
tag name (true of any element an actual DOM query can return). -/
def mainTagNonempty (doc : Doc) : Bool :=
  match doc.main with
  | some (.elem d _) => d.tag ≠ ""
  | _ => true

theorem createPosts_buttons (o : Oracle) (ps : List Post) (ej : JSRet (List Node))
    (h : createPosts o (.val ps) = .ok ej) :
    ∀ arts, ej = .val arts → ∀ b ∈ buttonsOfL arts, b.listeners = [] ∧ b.postId.isSome := by
  intro arts harts b hb
  subst harts
  simp only [createPosts] at h
  by_cases hlen : ps.length < 1
  · simp [hlen] at h
  · simp only [if_neg hlen] at h
    cases hl : createPostsLoop o ps with
    | error e => simp [hl] at h
    | ok arts' =>
      simp only [hl] at h
      injection h with hh
      injection hh with hh2
      subst hh2
      exact createPostsLoop_buttons o ps _ hl b hb

theorem assemble_buttons (cs2 xs : List Node) (k1 : Nat)
    (hcs2 : buttonsOfL cs2 = [])
    (hxs : ∀ b ∈ buttonsOfL xs, b.listeners = [] ∧ b.postId.isSome) :
    ∀ b ∈ buttonsOfL (addPassL k1 (cs2 ++ xs)).1, b.listeners.length = 1 := by
  refine addPassL_buttons (cs2 ++ xs) k1 ?_
  intro b hb
  rw [buttonsOfL_append, hcs2] at hb
  simp only [List.nil_append] at hb
  exact hxs b hb

theorem buttonsOfL_single_defaultParagraph :
    buttonsOfL [defaultParagraph] = [] := by
  simp [buttonsOfL, buttonsOf_defaultParagraph]

theorem refresh_buttons_once (o : Oracle) (posts : JSRet (List Post)) (doc : Doc) (k : Nat)
    (r : RefreshRet) (doc' : Doc) (k' : Nat)
    (hwf : mainTagNonempty doc = true)
    (h : refreshPosts o posts doc k = .ok (.val r, doc', k')) :
    ∀ b ∈ mainButtons doc', b.listeners.length = 1 := by
  cases posts with
  | undef => simp [refreshPosts] at h
  | null => simp [refreshPosts] at h
  | val ps =>
    cases hmn : doc.main with
    | none =>
      simp only [refreshPosts, removeButtonListeners, hmn, deleteChildElements,
        displayPosts, addButtonListeners] at h
      simp only [Except.ok.injEq, Prod.mk.injEq] at h
      obtain ⟨-, h2, -⟩ := h
      subst h2
      intro b hb
      simp [mainButtons, hmn] at hb
    | some m =>
      cases m with
      | text s =>
        cases hcp : createPosts o (.val ps) with
        | error e =>
          simp [refreshPosts, removeButtonListeners, hmn, deleteChildElements,
            displayPosts, hcp] at h
        | ok ej =>
          simp only [refreshPosts, removeButtonListeners, hmn, deleteChildElements,
            displayPosts, hcp, appendDomVal, addButtonListeners] at h
          simp only [Except.ok.injEq, Prod.mk.injEq] at h
          obtain ⟨-, h2, -⟩ := h
          subst h2
          intro b hb
          simp [mainButtons] at hb
      | elem d cs =>
        have htag : ¬ (d.tag = "") := by
          simp [mainTagNonempty, hmn] at hwf
          exact hwf
        cases hcp : createPosts o (.val ps) with
        | error e =>
          simp [refreshPosts, removeButtonListeners, hmn, deleteChildElements,
            if_neg htag, displayPosts, hcp] at h
        | ok ej =>
          simp only [refreshPosts, removeButtonListeners, hmn, deleteChildElements,
            if_neg htag, displayPosts, hcp, appendDomVal, addButtonListeners] at h
          simp only [Except.ok.injEq, Prod.mk.injEq] at h
          obtain ⟨-, h2, -⟩ := h
          subst h2
          intro b hb
          simp only [mainButtons] at hb
          have hdel : buttonsOfL (delLoop (removePassL k cs).1) = [] := by
            rw [delLoop_eq_filter]
            exact buttonsOfL_filter_nonelem (removePassL k cs).1
          cases ej with
          | undef =>
            exact assemble_buttons _ _ _ hdel
              (by intro b2 hb2; simp [buttonsOfL_single_defaultParagraph] at hb2) b hb
          | null =>
            exact assemble_buttons _ _ _ hdel
              (by intro b2 hb2; simp [buttonsOfL_single_defaultParagraph] at hb2) b hb
          | val arts =>
            by_cases hlen : DomVal.childElementCount (.frag arts) < 1
            · simp only [if_pos hlen] at hb
              exact assemble_buttons _ _ _ hdel
                (by intro b2 hb2; simp [buttonsOfL_single_defaultParagraph] at hb2) b hb
            · simp only [if_neg hlen] at hb
              exact assemble_buttons _ _ _ hdel
                (createPosts_buttons o ps (.val arts) hcp arts rfl) b hb

theorem refresh_preserves_wf (o : Oracle) (posts : JSRet (List Post)) (doc : Doc) (k : Nat)
    (rr : JSRet RefreshRet) (doc' : Doc) (k' : Nat)
    (hwf : mainTagNonempty doc = true)
    (h : refreshPosts o posts doc k = .ok (rr, doc', k')) :
    mainTagNonempty doc' = true := by
  cases posts with
  | undef =>
    simp only [refreshPosts, Except.ok.injEq, Prod.mk.injEq] at h
    obtain ⟨-, h2, -⟩ := h
    subst h2
    exact hwf
  | null =>
    simp only [refreshPosts, Except.ok.injEq, Prod.mk.injEq] at h
    obtain ⟨-, h2, -⟩ := h
    subst h2
    exact hwf
  | val ps =>
    cases hmn : doc.main with
    | none =>
      simp only [refreshPosts, removeButtonListeners, hmn, deleteChildElements,
        displayPosts, addButtonListeners] at h
      simp only [Except.ok.injEq, Prod.mk.injEq] at h
      obtain ⟨-, h2, -⟩ := h
      subst h2
      simp [mainTagNonempty, hmn]
    | some m =>
      cases m with
      | text s =>
        cases hcp : createPosts o (.val ps) with
        | error e =>
          simp [refreshPosts, removeButtonListeners, hmn, deleteChildElements,
            displayPosts, hcp] at h
        | ok ej =>
          simp only [refreshPosts, removeButtonListeners, hmn, deleteChildElements,
            displayPosts, hcp, appendDomVal, addButtonListeners] at h
          simp only [Except.ok.injEq, Prod.mk.injEq] at h
          obtain ⟨-, h2, -⟩ := h
          subst h2
          simp [mainTagNonempty]
      | elem d cs =>
        have htag : ¬ (d.tag = "") := by
          simp [mainTagNonempty, hmn] at hwf
          exact hwf
        cases hcp : createPosts o (.val ps) with
        | error e =>
          simp [refreshPosts, removeButtonListeners, hmn, deleteChildElements,
            if_neg htag, displayPosts, hcp] at h
        | ok ej =>
          simp only [refreshPosts, removeButtonListeners, hmn, deleteChildElements,
            if_neg htag, displayPosts, hcp, appendDomVal, addButtonListeners] at h
          simp only [Except.ok.injEq, Prod.mk.injEq] at h
          obtain ⟨-, h2, -⟩ := h
          subst h2
          cases ej with
          | undef => simp [mainTagNonempty, appendDomVal, htag]
          | null => simp [mainTagNonempty, appendDomVal, htag]
          | val arts =>
            by_cases hlen : (DomVal.frag arts).childElementCount = 0
            · simp [mainTagNonempty, appendDomVal, htag, hlen]
            · simp [mainTagNonempty, appendDomVal, htag, hlen]

/-- C1 (amended): after a refresh — and so after any two successive
refreshes — every button carrying a post-id data attribute under `<main>`
has exactly one bound click handler.  The single binding does not come from
`removeButtonListeners` (whose `removeEventListener` passes a fresh closure
matching no attached handler, removing nothing): it comes from
`deleteChildElements` discarding the previously rendered buttons and
`addButtonListeners` binding each freshly built button exactly once. -/
theorem two_refreshes_bind_buttons_once (o : Oracle) (p1 p2 : JSRet (List Post))
    (doc : Doc) (k : Nat) (r1 : JSRet RefreshRet) (doc1 : Doc) (k1 : Nat)
    (r2 : RefreshRet) (doc2 : Doc) (k2 : Nat)
    (hwf : mainTagNonempty doc = true)
    (h1 : refreshPosts o p1 doc k = .ok (r1, doc1, k1))
    (h2 : refreshPosts o p2 doc1 k1 = .ok (.val r2, doc2, k2)) :
    ∀ b ∈ mainButtons doc2, b.listeners.length = 1 :=
  refresh_buttons_once o p2 doc1 k1 r2 doc2 k2
    (refresh_preserves_wf o p1 doc k r1 doc1 k1 hwf h1) h2

/-- Concrete document whose button already carries an attached click
listener (closure id 0), with the allocation counter at 1. -/
def listenerDoc : Doc :=
  { main := some (.elem (sampleData "main")
      [.elem { buttonData with listeners := [0] } []]),
    selectDisabled := false }

/-- C1 counterexample: `removeButtonListeners` does not remove a previously
attached click listener.  On a button with a post-id attribute and one
attached listener (closure id 0), calling `removeButtonListeners` — whose
`removeEventListener` receives a freshly created closure (id 1) — leaves
the attached listener in place, not the empty listener set the claim's
removal step asserts. -/
theorem removeButtonListeners_removes_nothing :
    (mainButtons (removeButtonListeners listenerDoc 1).2.1).map (fun b => b.listeners)
      = [[0]] ∧
    [[0]] ≠ ([[]] : List (List Nat)) :=
  ⟨rfl, by decide⟩

theorem two_refreshes_bind_buttons_once_witness :
    ∃ (r1 : JSRet RefreshRet) (doc1 : Doc) (k1 : Nat)
      (r2 : RefreshRet) (doc2 : Doc) (k2 : Nat),
      refreshPosts okOracle (.val [samplePost]) sampleDoc 0 = .ok (r1, doc1, k1) ∧
      refreshPosts okOracle (.val [samplePost]) doc1 k1 = .ok (.val r2, doc2, k2) ∧
      ∀ b ∈ mainButtons doc2, b.listeners.length = 1 :=
  ⟨_, _, _, _, _, _, rfl, rfl,
   two_refreshes_bind_buttons_once okOracle (.val [samplePost]) (.val [samplePost])
     sampleDoc 0 _ _ _ _ _ _ rfl rfl rfl⟩

/-- C8: every function that looks up an expected DOM anchor signals a
missing anchor by returning the null sentinel, raising nothing:
`toggleCommentSection` and `toggleCommentButton` when no element with the
given post id exists (or there is no content to search), and
`addButtonListeners`, `removeButtonListeners`, `displayPosts` when no
`<main>` element exists. -/
theorem missing_anchor_returns_null (doc : Doc) (pid : Int) (o : Oracle)
    (posts : JSRet (List Post)) (k : Nat) :
    (∀ m, doc.main = some m → findFirst (secPred pid) m = none →
        toggleCommentSection (some pid) doc = (.null, doc)) ∧
    (doc.main = none → toggleCommentSection (some pid) doc = (.null, doc)) ∧
    (∀ m, doc.main = some m → findFirst (btnPred pid) m = none →
        toggleCommentButton (some pid) doc = (.null, doc)) ∧
    (doc.main = none → toggleCommentButton (some pid) doc = (.null, doc)) ∧
    (doc.main = none → addButtonListeners doc k = (.null, doc, k)) ∧
    (doc.main = none → removeButtonListeners doc k = (.null, doc, k)) ∧
    (doc.main = none → displayPosts o posts doc = .ok (.null, doc)) := by
  refine ⟨?_, ?_, ?_, ?_, ?_, ?_, ?_⟩
  · intro m hm hf
    have hupd : (updFirst (secPred pid) toggleHide m).2 = none := by
      rw [updFirst_snd_eq]
      rw [show (updFirst (secPred pid) id m).2 = none from hf]
      rfl
    simp only [toggleCommentSection, hm, hupd]
  · intro hm
    simp [toggleCommentSection, hm]
  · intro m hm hf
    have hupd : (updFirst (btnPred pid) flipLabel m).2 = none := by
      rw [updFirst_snd_eq]
      rw [show (updFirst (btnPred pid) id m).2 = none from hf]
      rfl
    simp only [toggleCommentButton, hm, hupd]
  · intro hm
    simp [toggleCommentButton, hm]
  · intro hm
    simp [addButtonListeners, hm]
  · intro hm
    simp [removeButtonListeners, hm]
  · intro hm
    simp [displayPosts, hm]

/-- Concrete document with no `<main>` element. -/
def docNoMain : Doc := { main := none, selectDisabled := false }

/-- Concrete document whose `<main>` element is empty. -/
def emptyMainDoc : Doc :=
  { main := some (.elem (sampleData "main") []), selectDisabled := false }

theorem missing_anchor_returns_null_witness :
    toggleCommentSection (some 5) emptyMainDoc = (.null, emptyMainDoc) ∧
    toggleCommentButton (some 5) emptyMainDoc = (.null, emptyMainDoc) ∧
    toggleCommentSection (some 5) docNoMain = (.null, docNoMain) ∧
    toggleCommentButton (some 5) docNoMain = (.null, docNoMain) ∧
    addButtonListeners docNoMain 0 = (.null, docNoMain, 0) ∧
    removeButtonListeners docNoMain 0 = (.null, docNoMain, 0) ∧
    displayPosts okOracle .null docNoMain = .ok (.null, docNoMain) :=
  ⟨(missing_anchor_returns_null emptyMainDoc 5 okOracle .null 0).1 _ rfl rfl,
   (missing_anchor_returns_null emptyMainDoc 5 okOracle .null 0).2.2.1 _ rfl rfl,
   (missing_anchor_returns_null docNoMain 5 okOracle .null 0).2.1 rfl,
   (missing_anchor_returns_null docNoMain 5 okOracle .null 0).2.2.2.1 rfl,
   (missing_anchor_returns_null docNoMain 5 okOracle .null 0).2.2.2.2.1 rfl,
   (missing_anchor_returns_null docNoMain 5 okOracle .null 0).2.2.2.2.2.1 rfl,
   (missing_anchor_returns_null docNoMain 5 okOracle .null 0).2.2.2.2.2.2 rfl⟩

/-- C7: on a change event, `selectMenuChangeEventHandler` resolves the user
id to the integer parsed from the selector's value when it parses to an
integer, otherwise to the fixed fallback id 1, and fetches that user's
posts with the resolved id (the posts it returns are the result of
`getUserPosts` at the resolved id, and that request was issued). -/
theorem handler_resolves_user_id (o : Oracle) (e : ChangeEvent) (doc : Doc) (k : Nat)
    (r : HandlerRet) (doc' : Doc) (k' : Nat)
    (h : selectMenuChangeEventHandler o (some e) doc k = .ok (.val r, doc', k')) :
    r.1 = (match e.parsed with | some n => n | none => 1) ∧
    (getUserPosts o (some r.1)).requested = true ∧
    (getUserPosts o (some r.1)).result = .ok r.2.1 := by
  simp only [selectMenuChangeEventHandler] at h
  cases hpr : (getUserPosts o
      (some (match e.parsed with | some n => n | none => 1))).result with
  | error err => simp only [hpr] at h; cases h
  | ok posts =>
    simp only [hpr] at h
    cases hrf : refreshPosts o posts
        (if e.hasTarget then { doc with selectDisabled := true } else doc) k with
    | error err => simp [hrf] at h
    | ok trip =>
      obtain ⟨rr, d2, k2⟩ := trip
      simp only [hrf] at h
      simp only [Except.ok.injEq, Prod.mk.injEq, JSRet.val.injEq] at h
      obtain ⟨h1, -, -⟩ := h
      subst h1
      refine ⟨rfl, ?_, ?_⟩
      · cases ho : o.postsReq (match e.parsed with | some n => n | none => 1) <;>
          simp [getUserPosts, ho]
      · exact hpr

theorem handler_resolves_user_id_witness :
    ∃ (r : HandlerRet) (doc' : Doc) (k' : Nat),
      selectMenuChangeEventHandler okOracle (some ⟨true, some 3⟩) docNoMain 0
        = .ok (.val r, doc', k') ∧
      r.1 = (3 : Int) ∧
      (getUserPosts okOracle (some r.1)).requested = true ∧
      (getUserPosts okOracle (some r.1)).result = .ok r.2.1 :=
  ⟨_, _, _, rfl,
   handler_resolves_user_id okOracle ⟨true, some 3⟩ docNoMain 0 _ _ _ rfl⟩
